import Mathlib

/-!
Shallow embedding of the order-checkout core of the E-commerce backend
(src/Backend/src/crud.py, src/Backend/src/routers/payments.py,
src/Backend/src/services/shipping_service.py, with the data model of
src/Backend/src/models.py).

Conventions of the embedding:
* SQLAlchemy rows become Lean structures; the session/database becomes an
  explicit immutable `DB` value threaded through the operations.
* Python ints become `Int`/`Nat`; Python floats (prices, weights, dimensions)
  become `Rat`, modelling exact decimal arithmetic on the small decimal
  values the application handles; timestamps become `Int`.
* Fallible operations return `Except`/`Option`.  A transaction that raises
  and is rolled back (db.rollback in create_order_from_cart) is modelled by
  the operation returning an error and the caller keeping the pre-call `DB`
  unchanged, which is exactly what a rollback of a transaction opened inside
  the call restores.
* Row-level locking (with_for_update) serialises the stock re-reads; in the
  sequential embedding the lock is the identity, so the locked re-fetch is an
  ordinary lookup in the threaded state.
-/

namespace ECom

/-- Product row (models.Product): price, stock and logistics fields. -/
structure Product where
  id : Nat
  sku : String
  name : String
  price : Rat
  stock : Int
  weight_kg : Rat
  height_cm : Rat
  width_cm : Rat
  length_cm : Rat
deriving Repr, DecidableEq

/-- CartItem row (models.CartItem): one product/quantity line of a cart. -/
structure CartItem where
  id : Nat
  cart_id : Nat
  product_id : Nat
  quantity : Int
deriving Repr, DecidableEq

/-- Cart row (models.Cart): one per user, optional coupon reference. -/
structure Cart where
  id : Nat
  user_id : Nat
  coupon_id : Option Nat
deriving Repr, DecidableEq

/-- Coupon row (models.Coupon). -/
structure Coupon where
  id : Nat
  code : String
  discount_percent : Rat
  expires_at : Option Int
  is_active : Bool
deriving Repr, DecidableEq

/-- OrderItem row (models.OrderItem): nullable product reference and frozen
price_at_purchase. -/
structure OrderItem where
  product_id : Option Nat
  quantity : Int
  price_at_purchase : Rat
deriving Repr, DecidableEq

/-- Order row (models.Order) together with its owned OrderItems. -/
structure Order where
  id : Nat
  user_id : Nat
  total_price : Rat
  discount_amount : Rat
  coupon_code_used : Option String
  status : String
  payment_intent_id : Option String
  items : List OrderItem
deriving Repr, DecidableEq

/-- ProductReview row (models.ProductReview). -/
structure ProductReview where
  id : Nat
  product_id : Nat
  user_id : Nat
  rating : Int
deriving Repr, DecidableEq

/-- The relational state: one list per table of models.py that the claims
touch. -/
structure DB where
  products : List Product
  carts : List Cart
  cart_items : List CartItem
  coupons : List Coupon
  orders : List Order
  reviews : List ProductReview
deriving Repr, DecidableEq

/-- Lookup of a product by primary key (crud.get_product; the eager loading
of reviews does not affect the returned row). -/
def get_product (db : DB) (product_id : Nat) : Option Product :=
  db.products.find? (fun p => p.id == product_id)

/-- Lookup of an order by primary key (crud.get_order_by_id). -/
def get_order_by_id (db : DB) (order_id : Nat) : Option Order :=
  db.orders.find? (fun o => o.id == order_id)

/-- Lookup of the cart of a user (crud.get_cart_by_user_id). -/
def get_cart_by_user_id (db : DB) (user_id : Nat) : Option Cart :=
  db.carts.find? (fun c => c.user_id == user_id)

/-- Items belonging to a cart (the cart.items relationship). -/
def cartItemsOf (db : DB) (cart_id : Nat) : List CartItem :=
  db.cart_items.filter (fun ci => ci.cart_id == cart_id)

/-- Coupon attached to a cart (the cart.coupon relationship: a dangling
coupon_id behaves like no coupon). -/
def couponOf (db : DB) (cart : Cart) : Option Coupon :=
  cart.coupon_id.bind (fun cid => db.coupons.find? (fun c => c.id == cid))

/-- Boolean validity filter of crud.get_valid_coupon_by_code: the code
matches, is_active is true, and expires_at is null or strictly after now. -/
def couponFilter (now : Int) (code : String) (c : Coupon) : Bool :=
  c.code == code && c.is_active &&
    (match c.expires_at with
     | none => true
     | some t => decide (now < t))

/-- Lookup of a currently valid coupon by code
(crud.get_valid_coupon_by_code). -/
def get_valid_coupon_by_code (db : DB) (now : Int) (code : String) :
    Option Coupon :=
  db.coupons.find? (couponFilter now code)

/-- Line found in a cart for a given product, if any (the filter_by query of
crud.add_item_to_cart). -/
def findCartLine (db : DB) (cart_id product_id : Nat) : Option CartItem :=
  db.cart_items.find? (fun ci =>
    ci.cart_id == cart_id && ci.product_id == product_id)

/-- Embedding of crud.add_item_to_cart.  Returns the possibly-updated state
together with the created/updated line, or the unchanged state and none when
the product does not exist or stock is insufficient.  new_id is the primary
key the database would assign to a freshly inserted row. -/
def add_item_to_cart (db : DB) (cart_id product_id : Nat) (quantity : Int)
    (new_id : Nat) : DB × Option CartItem :=
  match get_product db product_id with
  | none => (db, none)
  | some product =>
    let existing := findCartLine db cart_id product_id
    let current_quantity := (existing.map (fun ci => ci.quantity)).getD 0
    let requested_quantity := current_quantity + quantity
    if product.stock < requested_quantity then
      (db, none)
    else
      match existing with
      | some ci =>
        ({ db with
            cart_items := db.cart_items.map (fun x =>
              if x.id == ci.id then { x with quantity := requested_quantity }
              else x) },
         some { ci with quantity := requested_quantity })
      | none =>
        let newItem : CartItem :=
          { id := new_id, cart_id := cart_id, product_id := product_id,
            quantity := quantity }
        ({ db with cart_items := db.cart_items ++ [newItem] }, some newItem)

/-- Domain errors of crud.create_order_from_cart (OrderCreationError with its
four distinct messages). -/
inductive OrderErr where
  | emptyCart
  | couponInvalid
  | productGone (product_id : Nat)
  | insufficientStock (product_id : Nat)
deriving Repr, DecidableEq

/-- Stock decrement on the product row with the given id
(product.stock -= item.quantity under the row lock). -/
def decrementStock (ps : List Product) (product_id : Nat) (q : Int) :
    List Product :=
  ps.map (fun p => if p.id == product_id then { p with stock := p.stock - q }
                   else p)

/-- Cart subtotal of crud.create_order_from_cart: sum of current product
price times quantity, lines with a vanished product contributing nothing. -/
def cartSubtotal (db : DB) (items : List CartItem) : Rat :=
  (items.map (fun ci =>
    match get_product db ci.product_id with
    | some p => p.price * (ci.quantity : Rat)
    | none => 0)).sum

/-- Coupon re-validation step of crud.create_order_from_cart: when a coupon
is attached, re-resolve it by code through get_valid_coupon_by_code and
compute the discount amount and the code snapshot. -/
def couponCheck (db : DB) (now : Int) (cart : Cart) (subtotal : Rat) :
    Except OrderErr (Rat × Option String) :=
  match couponOf db cart with
  | none => .ok (0, none)
  | some c =>
    match get_valid_coupon_by_code db now c.code with
    | none => .error .couponInvalid
    | some valid_coupon =>
      .ok (subtotal * (valid_coupon.discount_percent / 100),
           some valid_coupon.code)

/-- Stock-reservation loop of crud.create_order_from_cart: for each cart
line, re-fetch the product under lock from the threaded product table, check
existence and stock, decrement, and record the OrderItem snapshot. -/
def processCartItems (ps : List Product) (items : List CartItem) :
    Except OrderErr (List Product × List OrderItem) :=
  match items with
  | [] => .ok (ps, [])
  | item :: rest =>
    match ps.find? (fun p => p.id == item.product_id) with
    | none => .error (.productGone item.product_id)
    | some product =>
      if product.stock < item.quantity then
        .error (.insufficientStock item.product_id)
      else
        match processCartItems (decrementStock ps item.product_id item.quantity)
            rest with
        | .error e => .error e
        | .ok (ps', ois) =>
          .ok (ps', { product_id := some product.id,
                      quantity := item.quantity,
                      price_at_purchase := product.price } :: ois)

/-- Embedding of crud.create_order_from_cart.  now is the clock value used by
the coupon re-validation, order_id the primary key the database assigns to
the new order.  An error models the raised OrderCreationError after
db.rollback, so no state is returned with it. -/
def create_order_from_cart (db : DB) (now : Int) (user_id order_id : Nat) :
    Except OrderErr (DB × Order) :=
  match get_cart_by_user_id db user_id with
  | none => .error .emptyCart
  | some cart =>
    let items := cartItemsOf db cart.id
    if items.isEmpty then .error .emptyCart
    else
      let subtotal := cartSubtotal db items
      match couponCheck db now cart subtotal with
      | .error e => .error e
      | .ok (discount_amount, coupon_code_used) =>
        let total_price := subtotal - discount_amount
        match processCartItems db.products items with
        | .error e => .error e
        | .ok (ps', order_items) =>
          let new_order : Order :=
            { id := order_id, user_id := user_id,
              total_price := total_price,
              discount_amount := discount_amount,
              coupon_code_used := coupon_code_used,
              status := "pending_payment",
              payment_intent_id := none,
              items := order_items }
          .ok ({ db with
                  products := ps',
                  orders := db.orders ++ [new_order],
                  carts := db.carts.map (fun c =>
                    if c.id == cart.id then { c with coupon_id := none }
                    else c),
                  cart_items := db.cart_items.filter (fun ci =>
                    ci.cart_id != cart.id) },
               new_order)

/-- Endpoint-level view of checkout: on success the committed state, on any
domain error the state exactly as before the call (db.rollback discards every
in-transaction mutation). -/
def checkout (db : DB) (now : Int) (user_id order_id : Nat) :
    DB × Except OrderErr Order :=
  match create_order_from_cart db now user_id order_id with
  | .ok (db', o) => (db', .ok o)
  | .error e => (db, .error e)

/-- Embedding of crud.delete_product together with the persistence semantics
declared in models.py on the PostgreSQL backend of database.py: the
Product.reviews relationship carries cascade all, delete-orphan, so the ORM
deletes the product's reviews with it; cart_items.product_id and
order_items.product_id are ForeignKey("products.id") with no ON DELETE
action, so the DELETE of a still-referenced product row violates the
constraint and the commit raises IntegrityError (modelled as the error
case, nothing deleted). -/
def delete_product (db : DB) (product_id : Nat) :
    Except Unit (DB × Option Product) :=
  match get_product db product_id with
  | none => .ok (db, none)
  | some p =>
    if (db.cart_items.any (fun ci => ci.product_id == product_id)) ||
        (db.orders.any (fun o =>
          o.items.any (fun oi => oi.product_id == some product_id))) then
      .error ()
    else
      .ok ({ db with
              products := db.products.filter (fun q => q.id != product_id),
              reviews := db.reviews.filter (fun r =>
                r.product_id != product_id) },
           some p)

/-- Session object of a Stripe checkout.session.completed event as the
webhook reads it: metadata.order_id (already parsed to the integer key),
payment_status and payment_intent. -/
structure StripeSessionObj where
  metadata_order_id : Option Nat
  payment_status : Option String
  payment_intent : Option String
deriving Repr, DecidableEq

/-- Verified Stripe event delivered to the webhook (the signature check of
stripe.Webhook.construct_event has already succeeded). -/
structure StripeEvent where
  type : String
  obj : StripeSessionObj
deriving Repr, DecidableEq

/-- Successful webhook acknowledgement body, with the optional detail
message of the no-order_id branch. -/
inductive WebhookAck where
  | success (detail : Option String)
deriving Repr, DecidableEq

/-- Embedding of the post-verification body of routers.payments.stripe_webhook
for a verified event, with the database commit succeeding (a failing commit
is re-raised as a 500 so the provider redelivers; that branch performs no
state change either). -/
def stripe_webhook (db : DB) (event : StripeEvent) : DB × WebhookAck :=
  if event.type == "checkout.session.completed" then
    match event.obj.metadata_order_id with
    | none => (db, .success (some "Webhook ignored, no order_id."))
    | some oid =>
      match get_order_by_id db oid with
      | none => (db, .success none)
      | some order =>
        if order.status ≠ "paid" ∧ event.obj.payment_status = some "paid" then
          ({ db with orders := db.orders.map (fun x =>
              if x.id == oid then
                { x with status := "paid",
                         payment_intent_id := event.obj.payment_intent }
              else x) },
           .success none)
        else (db, .success none)
  else (db, .success none)

/-- Outcome of the external stripe.checkout.Session.create call, as the
endpoint observes it: a session (url and payment_intent fields), a
StripeError, or any other exception. -/
inductive StripeCreateResult where
  | ok (url : Option String) (payment_intent : Option String)
  | stripeApiError
  | otherFailure
deriving Repr, DecidableEq

/-- HTTP-level result of the checkout-session endpoint: the checkout url or
an HTTPException status code. -/
inductive SessionResult where
  | ok (checkout_url : String)
  | httpError (status_code : Nat)
deriving Repr, DecidableEq

/-- Embedding of routers.payments.create_checkout_session.  stripe_result is
the outcome of the external call, commit_ok whether persisting the
payment_intent_id commits; a raising commit is caught by the blanket except
and mapped to a 500 (session state discarded, so the db is unchanged). -/
def create_checkout_session (db : DB) (order_id : Nat)
    (stripe_result : StripeCreateResult) (commit_ok : Bool) :
    DB × SessionResult :=
  match get_order_by_id db order_id with
  | none => (db, .httpError 404)
  | some order =>
    if order.status == "paid" then (db, .httpError 400)
    else
      match stripe_result with
      | .stripeApiError => (db, .httpError 400)
      | .otherFailure => (db, .httpError 500)
      | .ok url payment_intent =>
        match url with
        | none => (db, .httpError 500)
        | some u =>
          match payment_intent with
          | some pi_id =>
            if commit_ok then
              ({ db with orders := db.orders.map (fun x =>
                  if x.id == order_id then
                    { x with payment_intent_id := some pi_id }
                  else x) },
               .ok u)
            else (db, .httpError 500)
          | none => (db, .ok u)

/-- Carrier-mandated minimum weight (shipping_service.MIN_WEIGHT_KG). -/
def MIN_WEIGHT_KG : Rat := 5 / 100

/-- Carrier-mandated minimum height (shipping_service.MIN_HEIGHT_CM). -/
def MIN_HEIGHT_CM : Rat := 1

/-- Carrier-mandated minimum width (shipping_service.MIN_WIDTH_CM). -/
def MIN_WIDTH_CM : Rat := 10

/-- Carrier-mandated minimum length (shipping_service.MIN_LENGTH_CM). -/
def MIN_LENGTH_CM : Rat := 15

/-- Cart line as the shipping quoter consumes it: the loaded product row and
the quantity. -/
structure ShipItem where
  product : Product
  quantity : Int
deriving Repr, DecidableEq

/-- Virtual package sent to the rate API. -/
structure VirtualPackage where
  weight : Rat
  height : Rat
  width : Rat
  length : Rat
deriving Repr, DecidableEq

/-- Embedding of shipping_service._prepare_package_for_api: the virtual
package (none for an empty item list, mirroring the empty dict) and the
declared insurance value. -/
def prepare_package_for_api (items : List ShipItem) :
    Option VirtualPackage × Rat :=
  match items with
  | [] => (none, 0)
  | first :: rest =>
    let total_weight := ((first :: rest).map (fun i =>
      i.product.weight_kg * (i.quantity : Rat))).sum
    let total_value := ((first :: rest).map (fun i =>
      i.product.price * (i.quantity : Rat))).sum
    let final_height := ((first :: rest).map (fun i =>
      i.product.height_cm * (i.quantity : Rat))).sum
    let final_width :=
      (rest.map (fun i => i.product.width_cm)).foldl max first.product.width_cm
    let final_length :=
      (rest.map (fun i => i.product.length_cm)).foldl max
        first.product.length_cm
    (some { weight := max total_weight MIN_WEIGHT_KG,
            height := max final_height MIN_HEIGHT_CM,
            width := max final_width MIN_WIDTH_CM,
            length := max final_length MIN_LENGTH_CM },
     total_value)

/-- Decidable equality of Except results, so concrete runs of the fallible
operations can be checked by decide. -/
instance exceptDecEq {ε α : Type} [DecidableEq ε] [DecidableEq α] :
    DecidableEq (Except ε α) := fun a b =>
  match a, b with
  | .ok x, .ok y =>
    if h : x = y then .isTrue (by rw [h])
    else .isFalse (fun hc => h (Except.ok.inj hc))
  | .ok _, .error _ => .isFalse (fun hc => Except.noConfusion hc)
  | .error _, .ok _ => .isFalse (fun hc => Except.noConfusion hc)
  | .error e, .error f =>
    if h : e = f then .isTrue (by rw [h])
    else .isFalse (fun hc => h (Except.error.inj hc))

/-- Auxiliary relation for the stock-reservation proofs: same row, stock at
most that of the reference state. -/
def stockLE (p q : Product) : Prop := p.id = q.id ∧ p.stock ≤ q.stock

/-- Total quantity the order items record against one product id. -/
def qtyFor (ois : List OrderItem) (pid : Nat) : Int :=
  ((ois.filter (fun oi => oi.product_id == some pid)).map
    (fun oi => oi.quantity)).sum

/-- Total stock held across a product table. -/
def sumStocks (ps : List Product) : Int :=
  (ps.map (fun p => p.stock)).sum

/-- Count of cart lines for one (cart, product) pair; the cart invariant
says this is at most 1. -/
def pairCount (db : DB) (cart_id product_id : Nat) : Nat :=
  (db.cart_items.filter (fun ci =>
    ci.cart_id == cart_id && ci.product_id == product_id)).length

/-- Current quantity already in the cart for a product, 0 when no line
exists (the current_quantity of add_item_to_cart). -/
def currentQty (db : DB) (cart_id product_id : Nat) : Int :=
  ((findCartLine db cart_id product_id).map (fun ci => ci.quantity)).getD 0

/-- Concrete product used by the checkout fixtures. -/
def prodA : Product :=
  { id := 1, sku := "SKU-A", name := "Produto A", price := 100, stock := 5,
    weight_kg := 1, height_cm := 2, width_cm := 12, length_cm := 20 }

/-- Concrete low-stock product used by the insufficient-stock fixtures. -/
def prodB : Product :=
  { id := 2, sku := "SKU-B", name := "Produto B", price := 50, stock := 1,
    weight_kg := 2, height_cm := 3, width_cm := 8, length_cm := 30 }

/-- The 20 percent coupon of the pricing scenario. -/
def couponP20 : Coupon :=
  { id := 1, code := "PEDIDO20", discount_percent := 20, expires_at := none,
    is_active := true }

/-- Cart of user 1 with the PEDIDO20 coupon attached. -/
def cartP20 : Cart := { id := 1, user_id := 1, coupon_id := some 1 }

/-- Fixture for the pricing scenario: subtotal 200 with coupon PEDIDO20. -/
def dbP20 : DB :=
  { products := [prodA], carts := [cartP20],
    cart_items := [{ id := 1, cart_id := 1, product_id := 1, quantity := 2 }],
    coupons := [couponP20], orders := [], reviews := [] }

/-- Order the pricing scenario creates. -/
def orderP20 : Order :=
  { id := 10, user_id := 1, total_price := 160, discount_amount := 40,
    coupon_code_used := some "PEDIDO20", status := "pending_payment",
    payment_intent_id := none,
    items := [{ product_id := some 1, quantity := 2,
                price_at_purchase := 100 }] }

/-- State dbP20 reaches after the successful checkout. -/
def dbP20Done : DB :=
  { products := [{ prodA with stock := 3 }],
    carts := [{ cartP20 with coupon_id := none }],
    cart_items := [], coupons := [couponP20],
    orders := [orderP20], reviews := [] }

/-- Fixture for the insufficient-stock scenario: quantity 5 requested against
stock 1. -/
def dbShort : DB :=
  { products := [prodB],
    carts := [{ id := 1, user_id := 1, coupon_id := none }],
    cart_items := [{ id := 1, cart_id := 1, product_id := 2, quantity := 5 }],
    coupons := [], orders := [], reviews := [] }

/-- An expired-but-once-valid coupon (expires_at 5, checked at now 10). -/
def couponOld : Coupon :=
  { id := 2, code := "OLD10", discount_percent := 10, expires_at := some 5,
    is_active := true }

/-- Fixture for the expired-coupon checkout. -/
def dbOldCoupon : DB :=
  { products := [prodA],
    carts := [{ id := 1, user_id := 1, coupon_id := some 2 }],
    cart_items := [{ id := 1, cart_id := 1, product_id := 1, quantity := 1 }],
    coupons := [couponOld], orders := [], reviews := [] }

/-- Cancelled order used against the webhook. -/
def orderCancelled : Order :=
  { id := 1, user_id := 1, total_price := 100, discount_amount := 0,
    coupon_code_used := none, status := "cancelled",
    payment_intent_id := none, items := [] }

/-- Fixture holding only a cancelled order. -/
def dbCancelled : DB :=
  { products := [], carts := [], cart_items := [], coupons := [],
    orders := [orderCancelled], reviews := [] }

/-- Verified checkout.session.completed event reporting a successful payment
for order 1. -/
def evPaid : StripeEvent :=
  { type := "checkout.session.completed",
    obj := { metadata_order_id := some 1, payment_status := some "paid",
             payment_intent := some "pi_1" } }

/-- Fixture for delete_product: the product is referenced by a cart line and
by a historical order item, and has one review. -/
def dbReferenced : DB :=
  { products := [prodA], carts := [],
    cart_items := [{ id := 9, cart_id := 4, product_id := 1, quantity := 1 }],
    coupons := [],
    orders := [{ id := 3, user_id := 2, total_price := 100,
                 discount_amount := 0, coupon_code_used := none,
                 status := "paid", payment_intent_id := none,
                 items := [{ product_id := some 1, quantity := 1,
                             price_at_purchase := 100 }] }],
    reviews := [{ id := 1, product_id := 1, user_id := 2, rating := 5 }] }

/-- Fixture for delete_product: only a historical order item references the
product. -/
def dbOrderRef : DB :=
  { products := [prodA], carts := [], cart_items := [], coupons := [],
    orders := [{ id := 3, user_id := 2, total_price := 100,
                 discount_amount := 0, coupon_code_used := none,
                 status := "paid", payment_intent_id := none,
                 items := [{ product_id := some 1, quantity := 1,
                             price_at_purchase := 100 }] }],
    reviews := [] }

/-- Fixture for delete_product: only a review references the product. -/
def dbReviewedOnly : DB :=
  { products := [prodA, prodB], carts := [], cart_items := [], coupons := [],
    orders := [],
    reviews := [{ id := 1, product_id := 1, user_id := 2, rating := 5 },
                { id := 2, product_id := 2, user_id := 2, rating := 3 }] }

/-- Pending order used by the checkout-session fixtures. -/
def orderPending : Order :=
  { id := 7, user_id := 1, total_price := 10, discount_amount := 0,
    coupon_code_used := none, status := "pending_payment",
    payment_intent_id := none, items := [] }

/-- Fixture holding only a pending order. -/
def dbPending : DB :=
  { products := [], carts := [], cart_items := [], coupons := [],
    orders := [orderPending], reviews := [] }

/-- Folding max over a list never drops below the initial value. -/
theorem foldl_max_init_le (x0 : Rat) (xs : List Rat) :
    x0 ≤ xs.foldl max x0 := by
  induction xs generalizing x0 with
  | nil => exact le_refl x0
  | cons a l ih => exact le_trans (le_max_left x0 a) (ih (max x0 a))

/-- Folding max over a list dominates every member. -/
theorem foldl_max_mem_le {xs : List Rat} {a : Rat} (h : a ∈ xs) (x0 : Rat) :
    a ≤ xs.foldl max x0 := by
  induction xs generalizing x0 with
  | nil => cases h
  | cons b l ih =>
    rcases List.mem_cons.1 h with rfl | h'
    · exact le_trans (le_max_right x0 a) (foldl_max_init_le _ l)
    · exact ih h' _

/-- Folding max over a list returns the initial value or a member. -/
theorem foldl_max_cases (xs : List Rat) (x0 : Rat) :
    xs.foldl max x0 = x0 ∨ ∃ a ∈ xs, xs.foldl max x0 = a := by
  induction xs generalizing x0 with
  | nil => exact Or.inl rfl
  | cons b l ih =>
    rcases ih (max x0 b) with h | ⟨a, ha, h⟩
    · rcases max_choice x0 b with hm | hm
      · left; rw [List.foldl_cons, h, hm]
      · right; exact ⟨b, List.mem_cons_self b l, by rw [List.foldl_cons, h, hm]⟩
    · right; exact ⟨a, List.mem_cons_of_mem _ ha, by rw [List.foldl_cons, h]⟩

/-- Under a duplicate-free key column, any member carrying the searched key
is the row find? returns. -/
theorem find?_key_unique {α κ : Type} [DecidableEq κ] (key : α → κ)
    {l : List α} (hnodup : (l.map key).Nodup) {k : κ} {a : α}
    (hfind : l.find? (fun x => key x == k) = some a)
    {b : α} (hb : b ∈ l) (hbk : key b = k) : b = a := by
  induction l with
  | nil => cases hb
  | cons c l ih =>
    rw [List.map_cons, List.nodup_cons] at hnodup
    by_cases hc : key c = k
    · rw [List.find?_cons_of_pos _ (by simpa using hc)] at hfind
      injection hfind with hfind
      subst hfind
      rcases List.mem_cons.1 hb with rfl | hb'
      · rfl
      · exfalso
        apply hnodup.1
        rw [hc, ← hbk]
        exact List.mem_map_of_mem key hb'
    · rw [List.find?_cons_of_neg _ (by simpa using hc)] at hfind
      rcases List.mem_cons.1 hb with rfl | hb'
      · exact absurd hbk hc
      · exact ih hnodup.2 hfind hb'

/-- The stockLE relation is reflexive on any product table. -/
theorem forall₂_stockLE_refl (ps : List Product) :
    List.Forall₂ stockLE ps ps :=
  List.forall₂_same.2 (fun p _ => ⟨rfl, le_refl p.stock⟩)

/-- Lookup by id in two stockLE-related tables: both fail or both succeed,
and on success the left stock is bounded by the right one. -/
theorem find?_stockLE {ps qs : List Product}
    (h : List.Forall₂ stockLE ps qs) (pid : Nat) :
    (ps.find? (fun p => p.id == pid) = none ∧
     qs.find? (fun p => p.id == pid) = none) ∨
    ∃ p q, ps.find? (fun p => p.id == pid) = some p ∧
           qs.find? (fun p => p.id == pid) = some q ∧ p.stock ≤ q.stock := by
  induction h with
  | nil => exact Or.inl ⟨rfl, rfl⟩
  | @cons a b l₁ l₂ hab hl ih =>
    obtain ⟨hid, hst⟩ := hab
    by_cases hc : a.id = pid
    · right
      have hb : b.id = pid := by rw [← hid]; exact hc
      exact ⟨a, b, List.find?_cons_of_pos _ (by simpa using hc),
             List.find?_cons_of_pos _ (by simpa using hb), hst⟩
    · have hc' : ¬b.id = pid := by rw [← hid]; exact hc
      rw [List.find?_cons_of_neg _ (by simpa using hc),
          List.find?_cons_of_neg _ (by simpa using hc')]
      exact ih

/-- Decrementing a row keeps a table stockLE-below any reference table it
was already below, as long as the decrement is nonnegative. -/
theorem forall₂_stockLE_decrementStock {ps qs : List Product}
    (h : List.Forall₂ stockLE ps qs) (pid : Nat) {q : Int} (hq : 0 ≤ q) :
    List.Forall₂ stockLE (decrementStock ps pid q) qs := by
  induction h with
  | nil => exact List.Forall₂.nil
  | @cons a b l₁ l₂ hab hl ih =>
    obtain ⟨hid, hst⟩ := hab
    simp only [decrementStock, List.map_cons]
    refine List.Forall₂.cons ?_ (by simpa [decrementStock] using ih)
    by_cases hc : a.id == pid
    · rw [if_pos hc]
      refine ⟨hid, ?_⟩
      show a.stock - q ≤ b.stock
      omega
    · rw [if_neg hc]
      exact ⟨hid, hst⟩

/-- Stock reservation fails whenever some cart line is bad against the
original table: its product is gone, or its stock there is below the
requested quantity.  The threaded table is anywhere stockLE-below the
original, which the positive quantities of the earlier lines preserve. -/
theorem processCartItems_error_of_bad {qs : List Product}
    {items : List CartItem} {item : CartItem} (hmem : item ∈ items)
    (hpos : ∀ ci ∈ items, 0 ≤ ci.quantity)
    (hbad : qs.find? (fun p => p.id == item.product_id) = none ∨
            ∃ p, qs.find? (fun p => p.id == item.product_id) = some p ∧
                 p.stock < item.quantity)
    {ps : List Product} (hrel : List.Forall₂ stockLE ps qs) :
    ∃ e, processCartItems ps items = .error e := by
  induction items generalizing ps with
  | nil => cases hmem
  | cons hd tl ih =>
    rcases List.mem_cons.1 hmem with heq | hmem'
    · subst heq
      rcases find?_stockLE hrel item.product_id with ⟨h₁, _⟩ | ⟨p, q, h₁, h₂, hle⟩
      · exact ⟨.productGone item.product_id, by simp [processCartItems, h₁]⟩
      · rcases hbad with hnone | ⟨p', hp', hlt⟩
        · rw [hnone] at h₂; cases h₂
        · rw [hp'] at h₂
          injection h₂ with h₂
          subst h₂
          have hplt : p.stock < item.quantity := lt_of_le_of_lt hle hlt
          exact ⟨.insufficientStock item.product_id,
                 by simp [processCartItems, h₁, hplt]⟩
    · cases hfind : ps.find? (fun p => p.id == hd.product_id) with
      | none =>
        exact ⟨.productGone hd.product_id, by simp [processCartItems, hfind]⟩
      | some product =>
        by_cases hstock : product.stock < hd.quantity
        · exact ⟨.insufficientStock hd.product_id,
                 by simp [processCartItems, hfind, hstock]⟩
        · have hq : 0 ≤ hd.quantity := hpos hd (List.mem_cons_self hd tl)
          obtain ⟨e, he⟩ := ih hmem'
            (fun ci h => hpos ci (List.mem_cons_of_mem _ h))
            (forall₂_stockLE_decrementStock hrel hd.product_id hq)
          exact ⟨e, by simp [processCartItems, hfind, hstock, he]⟩

/-- Unfolding of decrementStock on a cons cell. -/
theorem decrementStock_cons (c : Product) (l : List Product) (pid : Nat)
    (q : Int) :
    decrementStock (c :: l) pid q =
      (if c.id == pid then { c with stock := c.stock - q } else c) ::
        decrementStock l pid q := rfl

/-- Unfolding of sumStocks on a cons cell. -/
theorem sumStocks_cons (c : Product) (l : List Product) :
    sumStocks (c :: l) = c.stock + sumStocks l := rfl

/-- A stock decrement never changes the id column. -/
theorem decrementStock_map_id (ps : List Product) (pid : Nat) (q : Int) :
    (decrementStock ps pid q).map (fun p => p.id) =
      ps.map (fun p => p.id) := by
  induction ps with
  | nil => rfl
  | cons c l ih =>
    rw [decrementStock_cons, List.map_cons, List.map_cons]
    congr 1
    by_cases hc : c.id == pid
    · rw [if_pos hc]
    · rw [if_neg hc]

/-- Decrementing an absent id is the identity. -/
theorem decrementStock_eq_of_not_found {ps : List Product} {pid : Nat}
    (h : ps.find? (fun p => p.id == pid) = none) (q : Int) :
    decrementStock ps pid q = ps := by
  induction ps with
  | nil => rfl
  | cons c l ih =>
    have hall := List.find?_eq_none.1 h
    have hc : ¬(c.id == pid) = true := hall c (List.mem_cons_self c l)
    rw [decrementStock_cons, if_neg hc]
    congr 1
    exact ih (List.find?_eq_none.2
      (fun x hx => hall x (List.mem_cons_of_mem _ hx)))

/-- Lookups by id survive a stock decrement: if a row is found in the
decremented table, a row with the same searched id exists in the original. -/
theorem find?_decrementStock_transfer {ps : List Product} {pid pid' : Nat}
    {q : Int} {p₁ : Product}
    (h : (decrementStock ps pid q).find? (fun x => x.id == pid') = some p₁) :
    ∃ p, ps.find? (fun x => x.id == pid') = some p := by
  have hmem := List.mem_of_find?_eq_some h
  have hpred := List.find?_some h
  obtain ⟨p, hp, hfp⟩ := List.mem_map.1 hmem
  have hpid : p.id = pid' := by
    have : p₁.id = pid' := by simpa using hpred
    rw [← this, ← hfp]
    by_cases hc : p.id == pid
    · rw [if_pos hc]
    · rw [if_neg hc]
  have : (ps.find? (fun x => x.id == pid')).isSome := by
    rw [List.find?_isSome]
    exact ⟨p, hp, by simpa using hpid⟩
  obtain ⟨r, hr⟩ := Option.isSome_iff_exists.1 this
  exact ⟨r, hr⟩

/-- On success, every product row ends exactly with its original stock minus
the total quantity the produced order items record against its id. -/
theorem processCartItems_ok_pointwise {items : List CartItem}
    {ps ps' : List Product} {ois : List OrderItem}
    (h : processCartItems ps items = .ok (ps', ois)) :
    List.Forall₂
      (fun p p' => p' = { p with stock := p.stock - qtyFor ois p.id })
      ps ps' := by
  induction items generalizing ps ps' ois with
  | nil =>
    simp only [processCartItems, Except.ok.injEq, Prod.mk.injEq] at h
    obtain ⟨h₁, h₂⟩ := h
    subst h₁
    subst h₂
    refine List.forall₂_same.2 (fun p _ => ?_)
    show p = { p with stock := p.stock - qtyFor [] p.id }
    have : qtyFor [] p.id = 0 := rfl
    rw [this, sub_zero]
  | cons hd tl ih =>
    cases hfind : ps.find? (fun p => p.id == hd.product_id) with
    | none => simp [processCartItems, hfind] at h
    | some product =>
      by_cases hstock : product.stock < hd.quantity
      · simp [processCartItems, hfind, hstock] at h
      · cases hrec : processCartItems
            (decrementStock ps hd.product_id hd.quantity) tl with
        | error e => simp [processCartItems, hfind, hstock, hrec] at h
        | ok pr =>
          obtain ⟨ps₁, ois₁⟩ := pr
          simp only [processCartItems, hfind, hstock, if_neg, ite_false,
            hrec, Except.ok.injEq, Prod.mk.injEq] at h
          obtain ⟨h₁, h₂⟩ := h
          subst h₁
          subst h₂
          have hpid : product.id = hd.product_id := by
            simpa using List.find?_some hfind
          have ihr := ih hrec
          have ihr' := List.forall₂_map_left_iff.1 ihr
          refine ihr'.imp ?_
          intro p p' hr
          by_cases hc : p.id = hd.product_id
          · rw [if_pos (by simpa using hc : (p.id == hd.product_id) = true)]
              at hr
            have hqty : qtyFor
                ((({ product_id := some product.id, quantity := hd.quantity,
                     price_at_purchase := product.price } : OrderItem)) :: ois₁)
                p.id = hd.quantity + qtyFor ois₁ p.id := by
              simp [qtyFor, hpid, hc]
            rw [hr, hqty]
            simp only [Product.mk.injEq, true_and, and_true]
            omega
          · rw [if_neg (by simpa using hc : ¬(p.id == hd.product_id) = true)]
              at hr
            have hqty : qtyFor
                ((({ product_id := some product.id, quantity := hd.quantity,
                     price_at_purchase := product.price } : OrderItem)) :: ois₁)
                p.id = qtyFor ois₁ p.id := by
              have hne : ¬product.id = p.id := by
                rw [hpid]; exact fun hx => hc hx.symm
              simp [qtyFor, hne]
            rw [hr, hqty]

/-- On success, starting from a duplicate-free nonnegative stock column, all
stocks remain nonnegative: each decrement was guarded by the stock check. -/
theorem processCartItems_ok_nonneg {items : List CartItem}
    {ps ps' : List Product} {ois : List OrderItem}
    (hnodup : (ps.map (fun p => p.id)).Nodup)
    (hnn : ∀ p ∈ ps, 0 ≤ p.stock)
    (h : processCartItems ps items = .ok (ps', ois)) :
    ∀ p' ∈ ps', 0 ≤ p'.stock := by
  induction items generalizing ps ps' ois with
  | nil =>
    simp only [processCartItems, Except.ok.injEq, Prod.mk.injEq] at h
    obtain ⟨h₁, _⟩ := h
    subst h₁
    exact hnn
  | cons hd tl ih =>
    cases hfind : ps.find? (fun p => p.id == hd.product_id) with
    | none => simp [processCartItems, hfind] at h
    | some product =>
      by_cases hstock : product.stock < hd.quantity
      · simp [processCartItems, hfind, hstock] at h
      · cases hrec : processCartItems
            (decrementStock ps hd.product_id hd.quantity) tl with
        | error e => simp [processCartItems, hfind, hstock, hrec] at h
        | ok pr =>
          obtain ⟨ps₁, ois₁⟩ := pr
          simp only [processCartItems, hfind, hstock, if_neg, ite_false,
            hrec, Except.ok.injEq, Prod.mk.injEq] at h
          obtain ⟨h₁, _⟩ := h
          subst h₁
          refine ih ?_ ?_ hrec
          · rw [decrementStock_map_id]
            exact hnodup
          · intro p₁ hp₁
            obtain ⟨p, hp, hfp⟩ := List.mem_map.1 hp₁
            by_cases hc : p.id = hd.product_id
            · have hpp : p = product :=
                find?_key_unique (fun x => x.id) hnodup hfind hp hc
              rw [if_pos (by simpa using hc), hpp] at hfp
              rw [← hfp]
              show 0 ≤ product.stock - hd.quantity
              omega
            · rw [if_neg (by simpa using hc)] at hfp
              rw [← hfp]
              exact hnn p hp

/-- Decrementing a present id under a duplicate-free id column lowers the
total stock by exactly the decrement. -/
theorem sumStocks_decrementStock {ps : List Product}
    (hnodup : (ps.map (fun p => p.id)).Nodup) {pid : Nat} {a : Product}
    (hfind : ps.find? (fun p => p.id == pid) = some a) (q : Int) :
    sumStocks (decrementStock ps pid q) = sumStocks ps - q := by
  induction ps with
  | nil => cases hfind
  | cons c l ih =>
    rw [List.map_cons, List.nodup_cons] at hnodup
    by_cases hc : c.id = pid
    · have hnone : l.find? (fun p => p.id == pid) = none := by
        refine List.find?_eq_none.2 (fun x hx => ?_)
        simp only [beq_iff_eq]
        intro hxid
        exact hnodup.1 (by rw [hc, ← hxid]; exact List.mem_map_of_mem _ hx)
      rw [decrementStock_cons, if_pos (by simpa using hc),
          decrementStock_eq_of_not_found hnone q, sumStocks_cons,
          sumStocks_cons]
      show c.stock - q + sumStocks l = c.stock + sumStocks l - q
      omega
    · rw [List.find?_cons_of_neg _ (by simpa using hc)] at hfind
      rw [decrementStock_cons, if_neg (by simpa using hc), sumStocks_cons,
          sumStocks_cons, ih hnodup.2 hfind]
      omega

/-- On success, the total stock removed from the table equals the sum of the
order-item quantities. -/
theorem processCartItems_ok_sum {items : List CartItem}
    {ps ps' : List Product} {ois : List OrderItem}
    (hnodup : (ps.map (fun p => p.id)).Nodup)
    (h : processCartItems ps items = .ok (ps', ois)) :
    sumStocks ps' = sumStocks ps - (ois.map (fun oi => oi.quantity)).sum := by
  induction items generalizing ps ps' ois with
  | nil =>
    simp only [processCartItems, Except.ok.injEq, Prod.mk.injEq] at h
    obtain ⟨h₁, h₂⟩ := h
    subst h₁
    subst h₂
    simp
  | cons hd tl ih =>
    cases hfind : ps.find? (fun p => p.id == hd.product_id) with
    | none => simp [processCartItems, hfind] at h
    | some product =>
      by_cases hstock : product.stock < hd.quantity
      · simp [processCartItems, hfind, hstock] at h
      · cases hrec : processCartItems
            (decrementStock ps hd.product_id hd.quantity) tl with
        | error e => simp [processCartItems, hfind, hstock, hrec] at h
        | ok pr =>
          obtain ⟨ps₁, ois₁⟩ := pr
          simp only [processCartItems, hfind, hstock, if_neg, ite_false,
            hrec, Except.ok.injEq, Prod.mk.injEq] at h
          obtain ⟨h₁, h₂⟩ := h
          subst h₁
          subst h₂
          have hsum := ih (by rw [decrementStock_map_id]; exact hnodup) hrec
          rw [hsum, sumStocks_decrementStock hnodup hfind hd.quantity]
          simp only [List.map_cons, List.sum_cons]
          omega

/-- On success every cart line found its product in the initial table. -/
theorem processCartItems_ok_found {items : List CartItem}
    {ps ps' : List Product} {ois : List OrderItem}
    (h : processCartItems ps items = .ok (ps', ois)) :
    ∀ ci ∈ items, ∃ p, ps.find? (fun x => x.id == ci.product_id) = some p := by
  induction items generalizing ps ps' ois with
  | nil => intro ci hci; cases hci
  | cons hd tl ih =>
    cases hfind : ps.find? (fun p => p.id == hd.product_id) with
    | none => simp [processCartItems, hfind] at h
    | some product =>
      by_cases hstock : product.stock < hd.quantity
      · simp [processCartItems, hfind, hstock] at h
      · cases hrec : processCartItems
            (decrementStock ps hd.product_id hd.quantity) tl with
        | error e => simp [processCartItems, hfind, hstock, hrec] at h
        | ok pr =>
          intro ci hci
          rcases List.mem_cons.1 hci with rfl | hci'
          · exact ⟨product, hfind⟩
          · obtain ⟨p₁, hp₁⟩ := ih hrec ci hci'
            exact find?_decrementStock_transfer hp₁

/-- Inversion of a successful checkout: the cart was found and nonempty, the
coupon check passed, stock reservation succeeded, and the returned order and
state are built from those intermediate results. -/
theorem create_order_ok_inv {db : DB} {now : Int} {uid oid : Nat}
    {db' : DB} {o : Order}
    (h : create_order_from_cart db now uid oid = .ok (db', o)) :
    ∃ cart, get_cart_by_user_id db uid = some cart ∧
      (cartItemsOf db cart.id).isEmpty = false ∧
      ∃ da cc, couponCheck db now cart
          (cartSubtotal db (cartItemsOf db cart.id)) = .ok (da, cc) ∧
      ∃ ps' ois,
        processCartItems db.products (cartItemsOf db cart.id)
          = .ok (ps', ois) ∧
        o = { id := oid, user_id := uid,
              total_price := cartSubtotal db (cartItemsOf db cart.id) - da,
              discount_amount := da, coupon_code_used := cc,
              status := "pending_payment", payment_intent_id := none,
              items := ois } ∧
        db' = { db with
                products := ps',
                orders := db.orders ++ [o],
                carts := db.carts.map (fun c =>
                  if c.id == cart.id then { c with coupon_id := none }
                  else c),
                cart_items := db.cart_items.filter (fun ci =>
                  ci.cart_id != cart.id) } := by
  cases hcart : get_cart_by_user_id db uid with
  | none => simp [create_order_from_cart, hcart] at h
  | some cart =>
    refine ⟨cart, rfl, ?_⟩
    cases hemp : (cartItemsOf db cart.id).isEmpty with
    | true => simp [create_order_from_cart, hcart, hemp] at h
    | false =>
      refine ⟨rfl, ?_⟩
      cases hcc : couponCheck db now cart
          (cartSubtotal db (cartItemsOf db cart.id)) with
      | error e => simp [create_order_from_cart, hcart, hemp, hcc] at h
      | ok pr =>
        obtain ⟨da, cc⟩ := pr
        refine ⟨da, cc, rfl, ?_⟩
        cases hpi : processCartItems db.products (cartItemsOf db cart.id) with
        | error e =>
          simp [create_order_from_cart, hcart, hemp, hcc, hpi] at h
        | ok pr2 =>
          obtain ⟨ps', ois⟩ := pr2
          refine ⟨ps', ois, rfl, ?_⟩
          simp only [create_order_from_cart, hcart, hemp, hcc, hpi,
            Bool.false_eq_true, if_false, Except.ok.injEq, Prod.mk.injEq]
            at h
          obtain ⟨hdb, ho⟩ := h
          subst ho
          subst hdb
          exact ⟨rfl, rfl⟩

/-- C1 (claim): a checkout in which some cart line's product is missing or
has stock strictly below the requested quantity fails with a domain error
and returns the state exactly as it was: no order row, no stock decrement,
cart items and coupon untouched. -/
theorem c1_checkout_insufficient_stock_atomic
    {db : DB} {now : Int} {uid oid : Nat} {cart : Cart}
    (hcart : get_cart_by_user_id db uid = some cart)
    (hpos : ∀ ci ∈ cartItemsOf db cart.id, 0 ≤ ci.quantity)
    {item : CartItem} (hmem : item ∈ cartItemsOf db cart.id)
    (hbad : get_product db item.product_id = none ∨
            ∃ p, get_product db item.product_id = some p ∧
                 p.stock < item.quantity) :
    ∃ e, checkout db now uid oid = (db, .error e) := by
  suffices hs : ∃ e, create_order_from_cart db now uid oid = .error e by
    obtain ⟨e, he⟩ := hs
    exact ⟨e, by simp [checkout, he]⟩
  have hemp : (cartItemsOf db cart.id).isEmpty = false := by
    cases hitems : cartItemsOf db cart.id with
    | nil => rw [hitems] at hmem; cases hmem
    | cons a l => simp
  cases hcc : couponCheck db now cart
      (cartSubtotal db (cartItemsOf db cart.id)) with
  | error e =>
    exact ⟨e, by simp [create_order_from_cart, hcart, hemp, hcc]⟩
  | ok pr =>
    obtain ⟨da, cc⟩ := pr
    obtain ⟨e, he⟩ := processCartItems_error_of_bad hmem hpos hbad
      (forall₂_stockLE_refl db.products)
    exact ⟨e, by simp [create_order_from_cart, hcart, hemp, hcc, he]⟩

/-- C1 witness: the documented scenario of a cart asking quantity 5 against
stock 1 aborts the checkout with the state returned unchanged. -/
theorem c1_witness :
    get_cart_by_user_id dbShort 1
      = some { id := 1, user_id := 1, coupon_id := none } ∧
    (∃ e, checkout dbShort 0 1 3 = (dbShort, .error e)) := by
  refine ⟨by decide, ?_⟩
  exact @c1_checkout_insufficient_stock_atomic dbShort 0 1 3 ⟨1, 1, none⟩
    (by decide) (by decide) ⟨1, 1, 2, 5⟩ (by decide)
    (Or.inr ⟨prodB, by decide, by decide⟩)

/-- C2 (claim): a successful checkout decrements each product's stock by
exactly the total quantity its order items record (every untouched product
keeps its stock), keeps every stock nonnegative, and removes in total
exactly the sum of the order-item quantities. -/
theorem c2_create_order_stock_invariant
    {db : DB} {now : Int} {uid oid : Nat} {db' : DB} {o : Order}
    (hnodup : (db.products.map (fun p => p.id)).Nodup)
    (hnn : ∀ p ∈ db.products, 0 ≤ p.stock)
    (hsucc : create_order_from_cart db now uid oid = .ok (db', o)) :
    List.Forall₂
      (fun p p' => p' = { p with stock := p.stock - qtyFor o.items p.id })
      db.products db'.products
    ∧ (∀ p' ∈ db'.products, 0 ≤ p'.stock)
    ∧ sumStocks db.products - sumStocks db'.products
        = (o.items.map (fun oi => oi.quantity)).sum := by
  obtain ⟨cart, hcart, hemp, da, cc, hcc, ps', ois, hpi, ho, hdb⟩ :=
    create_order_ok_inv hsucc
  have hps : db'.products = ps' := by rw [hdb]
  have hoi : o.items = ois := by rw [ho]
  rw [hps, hoi]
  refine ⟨processCartItems_ok_pointwise hpi,
          processCartItems_ok_nonneg hnodup hnn hpi, ?_⟩
  have hsum := processCartItems_ok_sum hnodup hpi
  omega

/-- C2 witness: in the pricing scenario stock drops from 5 to 3 for the
quantity-2 order item, stays nonnegative, and the totals match. -/
theorem c2_witness :
    (dbP20.products.map (fun p => p.id)).Nodup ∧
    (∀ p ∈ dbP20.products, 0 ≤ p.stock) ∧
    (List.Forall₂
      (fun p p' =>
        p' = { p with stock := p.stock - qtyFor orderP20.items p.id })
      dbP20.products dbP20Done.products
    ∧ (∀ p' ∈ dbP20Done.products, 0 ≤ p'.stock)
    ∧ sumStocks dbP20.products - sumStocks dbP20Done.products
        = (orderP20.items.map (fun oi => oi.quantity)).sum) := by
  refine ⟨by decide, by decide, ?_⟩
  have hsucc : create_order_from_cart dbP20 0 1 10
      = .ok (dbP20Done, orderP20) := by
    simp [create_order_from_cart, dbP20, dbP20Done, orderP20, cartP20,
      prodA, couponP20, get_cart_by_user_id, cartItemsOf, cartSubtotal,
      get_product, couponCheck, couponOf, get_valid_coupon_by_code,
      couponFilter, processCartItems, decrementStock]
    norm_num
  exact c2_create_order_stock_invariant (by decide) (by decide) hsucc

/-- Propositional reading of the boolean coupon filter: code matches, the
coupon is active, and it has no expiry or expires strictly after now. -/
theorem couponFilter_iff (now : Int) (code : String) (c : Coupon) :
    couponFilter now code c = true ↔
      (c.code = code ∧ c.is_active = true ∧
       (c.expires_at = none ∨ ∃ t, c.expires_at = some t ∧ now < t)) := by
  unfold couponFilter
  cases he : c.expires_at with
  | none => simp [he]
  | some t =>
    simp only [he, Bool.and_eq_true, beq_iff_eq, decide_eq_true_eq]
    constructor
    · rintro ⟨⟨h1, h2⟩, h3⟩
      exact ⟨h1, h2, Or.inr ⟨t, rfl, h3⟩⟩
    · rintro ⟨h1, h2, h3⟩
      refine ⟨⟨h1, h2⟩, ?_⟩
      rcases h3 with h3 | ⟨t', ht', hlt⟩
      · cases h3
      · injection ht' with ht'
        rw [ht']
        exact hlt

/-- The coupon lookup finds nothing exactly when no stored coupon passes the
validity test of the filter. -/
theorem get_valid_coupon_none_iff (db : DB) (now : Int) (code : String) :
    get_valid_coupon_by_code db now code = none ↔
      ∀ c' ∈ db.coupons, ¬(c'.code = code ∧ c'.is_active = true ∧
        (c'.expires_at = none ∨ ∃ t, c'.expires_at = some t ∧ now < t)) := by
  rw [get_valid_coupon_by_code, List.find?_eq_none]
  constructor
  · intro hnone c' hc' hcond
    exact hnone c' hc' ((couponFilter_iff now code c').2 hcond)
  · intro hall c' hc' hfil
    exact hall c' hc' ((couponFilter_iff now code c').1 hfil)

/-- C4 (claim): when the attached coupon is deactivated or expired at
checkout time (coupon codes being unique), checkout fails with the
coupon-invalid error and returns the state unchanged; the validity test is
exactly the lookup_valid one: code matches, is_active, and expires_at null
or strictly after now. -/
theorem c4_checkout_invalid_coupon
    {db : DB} {now : Int} {uid oid : Nat} {cart : Cart}
    (hcart : get_cart_by_user_id db uid = some cart)
    (hemp : (cartItemsOf db cart.id).isEmpty = false)
    {cid : Nat} (hcid : cart.coupon_id = some cid)
    {c : Coupon} (hc : db.coupons.find? (fun x => x.id == cid) = some c)
    (huniq : ∀ c' ∈ db.coupons, c'.code = c.code → c' = c)
    (hinvalid : c.is_active = false ∨ ∃ t, c.expires_at = some t ∧ t ≤ now) :
    checkout db now uid oid = (db, .error .couponInvalid)
    ∧ get_valid_coupon_by_code db now c.code = none
    ∧ (∀ code, get_valid_coupon_by_code db now code = none ↔
        ∀ c' ∈ db.coupons, ¬(c'.code = code ∧ c'.is_active = true ∧
          (c'.expires_at = none ∨ ∃ t, c'.expires_at = some t ∧ now < t))) := by
  have hnone : get_valid_coupon_by_code db now c.code = none := by
    rw [get_valid_coupon_none_iff]
    intro c' hc' hcond
    obtain ⟨h1, h2, h3⟩ := hcond
    have hcc : c' = c := huniq c' hc' h1
    subst hcc
    rcases hinvalid with hin | ⟨t, ht, hle⟩
    · rw [hin] at h2; cases h2
    · rcases h3 with h3 | ⟨t', ht', hlt⟩
      · rw [ht] at h3; cases h3
      · rw [ht] at ht'
        injection ht' with ht'
        omega
  have hco : couponOf db cart = some c := by simp [couponOf, hcid, hc]
  have hcc : couponCheck db now cart
      (cartSubtotal db (cartItemsOf db cart.id)) = .error .couponInvalid := by
    simp [couponCheck, hco, hnone]
  have herr : create_order_from_cart db now uid oid
      = .error .couponInvalid := by
    simp [create_order_from_cart, hcart, hemp, hcc]
  exact ⟨by simp [checkout, herr], hnone, get_valid_coupon_none_iff db now⟩

/-- C4 witness: the coupon OLD10 expired at time 5; a checkout at time 10
aborts with the coupon-invalid error and the state unchanged. -/
theorem c4_witness :
    checkout dbOldCoupon 10 1 4 = (dbOldCoupon, .error .couponInvalid)
    ∧ get_valid_coupon_by_code dbOldCoupon 10 "OLD10" = none := by
  have h := @c4_checkout_invalid_coupon dbOldCoupon 10 1 4 ⟨1, 1, some 2⟩
    (by decide) (by decide) 2 (by decide) couponOld (by decide) (by decide)
    (Or.inr ⟨5, by decide, by decide⟩)
  exact ⟨h.1, h.2.1⟩

/-- C5 (claim): a successful checkout prices the order from current product
prices: total_price is the cart subtotal minus the discount; every cart line
has an existing product; without a coupon the discount is zero and no code
is recorded; with a coupon the discount is subtotal times discount_percent
over 100 of the re-validated coupon, whose code is snapshotted. -/
theorem c5_order_pricing
    {db : DB} {now : Int} {uid oid : Nat} {db' : DB} {o : Order}
    {cart : Cart}
    (hcart : get_cart_by_user_id db uid = some cart)
    (hsucc : create_order_from_cart db now uid oid = .ok (db', o)) :
    o.total_price
      = cartSubtotal db (cartItemsOf db cart.id) - o.discount_amount
    ∧ (∀ ci ∈ cartItemsOf db cart.id, ∃ p,
        get_product db ci.product_id = some p)
    ∧ (couponOf db cart = none →
        o.discount_amount = 0 ∧ o.coupon_code_used = none)
    ∧ (∀ c, couponOf db cart = some c →
        ∃ vc, get_valid_coupon_by_code db now c.code = some vc ∧
          o.discount_amount
            = cartSubtotal db (cartItemsOf db cart.id)
              * (vc.discount_percent / 100) ∧
          o.coupon_code_used = some vc.code) := by
  obtain ⟨cart₀, hcart₀, hemp, da, cc, hcc, ps', ois, hpi, ho, hdb⟩ :=
    create_order_ok_inv hsucc
  rw [hcart₀] at hcart
  injection hcart with hcart
  subst hcart
  have htp : o.total_price
      = cartSubtotal db (cartItemsOf db cart₀.id) - da := by rw [ho]
  have hda : o.discount_amount = da := by rw [ho]
  have hccu : o.coupon_code_used = cc := by rw [ho]
  refine ⟨by rw [htp, hda], ?_, ?_, ?_⟩
  · intro ci hci
    exact processCartItems_ok_found hpi ci hci
  · intro hnoc
    simp only [couponCheck, hnoc, Except.ok.injEq, Prod.mk.injEq] at hcc
    obtain ⟨h1, h2⟩ := hcc
    exact ⟨by rw [hda, ← h1], by rw [hccu, ← h2]⟩
  · intro c hcoc
    cases hvc : get_valid_coupon_by_code db now c.code with
    | none => simp [couponCheck, hcoc, hvc] at hcc
    | some vc =>
      simp only [couponCheck, hcoc, hvc, Except.ok.injEq,
        Prod.mk.injEq] at hcc
      obtain ⟨h1, h2⟩ := hcc
      exact ⟨vc, rfl, by rw [hda, ← h1], by rw [hccu, ← h2]⟩

/-- C5 witness: the PEDIDO20 scenario: subtotal 200, total 160, discount 40,
code snapshot PEDIDO20. -/
theorem c5_witness :
    get_cart_by_user_id dbP20 1 = some cartP20
    ∧ orderP20.total_price
        = cartSubtotal dbP20 (cartItemsOf dbP20 cartP20.id)
          - orderP20.discount_amount
    ∧ orderP20.total_price = 160
    ∧ orderP20.discount_amount = 40
    ∧ orderP20.coupon_code_used = some "PEDIDO20" := by
  have hsucc : create_order_from_cart dbP20 0 1 10
      = .ok (dbP20Done, orderP20) := by
    simp [create_order_from_cart, dbP20, dbP20Done, orderP20, cartP20,
      prodA, couponP20, get_cart_by_user_id, cartItemsOf, cartSubtotal,
      get_product, couponCheck, couponOf, get_valid_coupon_by_code,
      couponFilter, processCartItems, decrementStock]
    norm_num
  have h := @c5_order_pricing dbP20 0 1 10 dbP20Done orderP20 cartP20
    (by decide) hsucc
  exact ⟨by decide, h.1, rfl, rfl, rfl⟩

/-- C3 counterexample: the claim says that for every status other than
pending_payment the webhook leaves the order's status unchanged; but a
verified completed event with payment_status paid moves a cancelled order to
paid. -/
theorem c3_counterexample :
    dbCancelled.orders.map (fun o => o.status) = ["cancelled"]
    ∧ (stripe_webhook dbCancelled evPaid).1.orders.map (fun o => o.status)
        = ["paid"]
    ∧ "cancelled" ≠ "pending_payment" := by
  refine ⟨rfl, ?_, by decide⟩
  decide

/-- C3 (amended): the webhook only ever sets a status to paid, and only on a
verified checkout.session.completed event whose payment_status is paid and
whose metadata names the order; an already-paid order is untouched (the
event still acknowledges success); an event whose payment_status is not paid
changes nothing; but any other status — not just pending_payment — is moved
to paid by a successful completed event. -/
theorem c3_webhook_transition_discipline
    (db : DB) (ev : StripeEvent)
    (hnodup : (db.orders.map (fun o => o.id)).Nodup) :
    (∃ d, (stripe_webhook db ev).2 = .success d)
    ∧ List.Forall₂ (fun o o' =>
        o' = o ∨
        (ev.type = "checkout.session.completed"
          ∧ ev.obj.metadata_order_id = some o.id
          ∧ ev.obj.payment_status = some "paid"
          ∧ o.status ≠ "paid"
          ∧ o' = { o with
                   status := "paid",
                   payment_intent_id := ev.obj.payment_intent }))
        db.orders (stripe_webhook db ev).1.orders
    ∧ (ev.obj.payment_status ≠ some "paid" → (stripe_webhook db ev).1 = db)
    ∧ (∀ oid order, ev.obj.metadata_order_id = some oid →
        get_order_by_id db oid = some order → order.status = "paid" →
        (stripe_webhook db ev).1 = db) := by
  by_cases htype : ev.type == "checkout.session.completed"
  · cases hmeta : ev.obj.metadata_order_id with
    | none =>
      refine ⟨⟨some "Webhook ignored, no order_id.",
        by simp [stripe_webhook, htype, hmeta]⟩, ?_, ?_, ?_⟩
      · have hdb : (stripe_webhook db ev).1 = db := by
          simp [stripe_webhook, htype, hmeta]
        rw [hdb]
        exact List.forall₂_same.2 (fun o _ => Or.inl rfl)
      · intro _
        simp [stripe_webhook, htype, hmeta]
      · intro oid order hoid
        cases hoid
    | some oid =>
      cases hord : get_order_by_id db oid with
      | none =>
        have hdb : (stripe_webhook db ev).1 = db := by
          simp [stripe_webhook, htype, hmeta, hord]
        refine ⟨⟨none, by simp [stripe_webhook, htype, hmeta, hord]⟩, ?_,
          fun _ => hdb, ?_⟩
        · rw [hdb]
          exact List.forall₂_same.2 (fun o _ => Or.inl rfl)
        · intro oid' order' hoid'
          injection hoid' with hoid'
          subst hoid'
          rw [hord]
          intro hc
          cases hc
      | some order =>
        by_cases hcond : order.status ≠ "paid"
            ∧ ev.obj.payment_status = some "paid"
        · refine ⟨⟨none, by simp [stripe_webhook, htype, hmeta, hord,
            hcond]⟩, ?_, ?_, ?_⟩
          · have hdb : (stripe_webhook db ev).1.orders
                = db.orders.map (fun x =>
                    if x.id == oid then
                      { x with
                        status := "paid",
                        payment_intent_id := ev.obj.payment_intent }
                    else x) := by
              simp [stripe_webhook, htype, hmeta, hord, hcond]
            rw [hdb]
            rw [List.forall₂_map_right_iff]
            refine List.forall₂_same.2 (fun o ho => ?_)
            by_cases hid : o.id = oid
            · right
              have hord₂ : db.orders.find? (fun x => x.id == oid)
                  = some order := hord
              have ho' : o = order :=
                find?_key_unique (fun x => x.id) hnodup hord₂ ho hid
              rw [if_pos (by simpa using hid)]
              exact ⟨by simpa using htype, by rw [hid],
                hcond.2, by rw [ho']; exact hcond.1, rfl⟩
            · rw [if_neg (by simpa using hid)]
              exact Or.inl rfl
          · intro hps
            exact absurd hcond.2 hps
          · intro oid' order' hoid' hord' hpaid
            injection hoid' with hoid'
            subst hoid'
            rw [hord] at hord'
            injection hord' with hord'
            subst hord'
            exact absurd hpaid hcond.1
        · have hdb : (stripe_webhook db ev).1 = db := by
            simp [stripe_webhook, htype, hmeta, hord, hcond]
          refine ⟨⟨none, by simp [stripe_webhook, htype, hmeta, hord,
            hcond]⟩, ?_, fun _ => hdb, fun _ _ _ _ _ => hdb⟩
          rw [hdb]
          exact List.forall₂_same.2 (fun o _ => Or.inl rfl)
  · have hdb : (stripe_webhook db ev).1 = db := by
      simp [stripe_webhook, htype]
    refine ⟨⟨none, by simp [stripe_webhook, htype]⟩, ?_,
      fun _ => hdb, fun _ _ _ _ _ => hdb⟩
    rw [hdb]
    exact List.forall₂_same.2 (fun o _ => Or.inl rfl)

/-- C3 amended witness: on the cancelled-order fixture the event reports
success and the only order moves to paid as the transition shape allows. -/
theorem c3_witness :
    (dbCancelled.orders.map (fun o => o.id)).Nodup
    ∧ (∃ d, (stripe_webhook dbCancelled evPaid).2 = .success d) := by
  refine ⟨by decide, ?_⟩
  exact (c3_webhook_transition_discipline dbCancelled evPaid (by decide)).1

/-- C10 (claim): a verified completed event naming an order id that matches
no stored order acknowledges success and changes nothing. -/
theorem c10_webhook_unknown_order_noop
    {db : DB} {ev : StripeEvent} {oid : Nat}
    (htype : ev.type = "checkout.session.completed")
    (hmeta : ev.obj.metadata_order_id = some oid)
    (hnone : get_order_by_id db oid = none) :
    stripe_webhook db ev = (db, .success none) := by
  simp [stripe_webhook, htype, hmeta, hnone]

/-- C10 witness: an event for order 1 against an empty order table is
absorbed with success and no state change. -/
theorem c10_witness :
    evPaid.type = "checkout.session.completed"
    ∧ stripe_webhook
        { products := [], carts := [], cart_items := [], coupons := [],
          orders := [], reviews := [] } evPaid
      = ({ products := [], carts := [], cart_items := [], coupons := [],
           orders := [], reviews := [] }, .success none) := by
  refine ⟨by decide, ?_⟩
  exact @c10_webhook_unknown_order_noop ⟨[], [], [], [], [], []⟩ evPaid 1
    (by decide) (by decide) (by decide)

/-- C6 (claim): add_item_to_cart merges the requested quantity into an
existing line for the product (preserving at most one line per product per
cart) and signals insufficient stock by returning none with the state
unchanged whenever the merged quantity would exceed current stock. -/
theorem c6_add_item_merge_and_stock
    (db : DB) (cart_id product_id : Nat) (quantity : Int) (new_id : Nat)
    (hinv : ∀ cid pid, pairCount db cid pid ≤ 1) :
    (∀ cid pid,
      pairCount (add_item_to_cart db cart_id product_id quantity new_id).1
        cid pid ≤ 1)
    ∧ (∀ product, get_product db product_id = some product →
        product.stock < currentQty db cart_id product_id + quantity →
        add_item_to_cart db cart_id product_id quantity new_id = (db, none))
    ∧ (∀ product ci, get_product db product_id = some product →
        findCartLine db cart_id product_id = some ci →
        ¬product.stock < ci.quantity + quantity →
        ((add_item_to_cart db cart_id product_id quantity
            new_id).1.cart_items.length = db.cart_items.length
         ∧ (add_item_to_cart db cart_id product_id quantity new_id).2
            = some { ci with quantity := ci.quantity + quantity })) := by
  refine ⟨?_, ?_, ?_⟩
  · intro cid pid
    cases hp : get_product db product_id with
    | none => simp only [add_item_to_cart, hp]; exact hinv cid pid
    | some product =>
      cases hline : findCartLine db cart_id product_id with
      | some ci =>
        simp only [add_item_to_cart, hp, hline, Option.map_some',
          Option.getD_some]
        by_cases hlt : product.stock < ci.quantity + quantity
        · rw [if_pos hlt]
          exact hinv cid pid
        · rw [if_neg hlt]
          dsimp only
          have hcount : pairCount
              { db with cart_items := db.cart_items.map (fun x =>
                  if x.id == ci.id then
                    { x with quantity := ci.quantity + quantity }
                  else x) } cid pid = pairCount db cid pid := by
            unfold pairCount
            rw [← List.countP_eq_length_filter,
                ← List.countP_eq_length_filter, List.countP_map]
            refine List.countP_congr (fun x _ => ?_)
            by_cases hx : x.id == ci.id
            · simp [Function.comp, hx]
            · simp [Function.comp, hx]
          rw [hcount]
          exact hinv cid pid
      | none =>
        simp only [add_item_to_cart, hp, hline, Option.map_none',
          Option.getD_none]
        by_cases hlt : product.stock < 0 + quantity
        · rw [if_pos hlt]
          exact hinv cid pid
        · rw [if_neg hlt]
          dsimp only
          unfold pairCount
          dsimp only
          rw [List.filter_append, List.length_append]
          by_cases hpair : cid = cart_id ∧ pid = product_id
          · obtain ⟨h1, h2⟩ := hpair
            subst h1
            subst h2
            have hzero : (db.cart_items.filter (fun x =>
                x.cart_id == cid && x.product_id == pid)).length = 0 := by
              rw [List.length_eq_zero, List.filter_eq_nil_iff]
              intro x hx
              have := List.find?_eq_none.1 hline x hx
              simpa using this
            rw [hzero]
            simp
          · have hone : (List.filter
                (fun x => x.cart_id == cid && x.product_id == pid)
                [({ id := new_id, cart_id := cart_id,
                    product_id := product_id,
                    quantity := quantity } : CartItem)]).length = 0 := by
              rw [List.length_eq_zero, List.filter_eq_nil_iff]
              intro x hx
              rw [List.mem_singleton] at hx
              subst hx
              simp only [Bool.and_eq_true, beq_iff_eq, not_and]
              intro h1 h2
              exact hpair ⟨h1.symm, h2.symm⟩
            rw [hone]
            have := hinv cid pid
            unfold pairCount at this
            omega
  · intro product hp hlt
    have hlt' : product.stock <
        ((findCartLine db cart_id product_id).map
          (fun ci => ci.quantity)).getD 0 + quantity := hlt
    simp only [add_item_to_cart, hp]
    rw [if_pos hlt']
  · intro product ci hp hline hge
    simp only [add_item_to_cart, hp, hline, Option.map_some',
      Option.getD_some]
    rw [if_neg hge]
    exact ⟨List.length_map _ _, rfl⟩

/-- C6 witness: re-adding quantity 1 against stock 1 with 5 already in the
cart returns the stock-insufficient signal with the state unchanged; adding
1 to the existing quantity-2 line of the pricing fixture merges to 3 without
creating a second line. -/
theorem c6_witness :
    add_item_to_cart dbShort 1 2 1 99 = (dbShort, none)
    ∧ ((add_item_to_cart dbP20 1 1 1 99).1.cart_items.length
        = dbP20.cart_items.length
       ∧ (add_item_to_cart dbP20 1 1 1 99).2
          = some { id := 1, cart_id := 1, product_id := 1, quantity := 3 }) := by
  have hinv1 : ∀ cid pid, pairCount dbShort cid pid ≤ 1 := by
    intro cid pid
    exact le_trans (List.length_filter_le _ _) (by decide)
  have hinv2 : ∀ cid pid, pairCount dbP20 cid pid ≤ 1 := by
    intro cid pid
    exact le_trans (List.length_filter_le _ _) (by decide)
  have h1 := c6_add_item_merge_and_stock dbShort 1 2 1 99 hinv1
  have h2 := c6_add_item_merge_and_stock dbP20 1 1 1 99 hinv2
  refine ⟨h1.2.1 prodB (by decide) (by decide), ?_⟩
  have hm := h2.2.2 prodA
    { id := 1, cart_id := 1, product_id := 1, quantity := 2 }
    (by decide) (by decide) (by decide)
  exact ⟨hm.1, by rw [hm.2]; decide⟩

/-- C7 counterexample: with the schema of models.py the delete of a product
referenced by a historical order item is blocked by the foreign key (there
is no ON DELETE SET NULL), and a referencing cart line blocks it too instead
of being cascade-deleted. -/
theorem c7_counterexample :
    delete_product dbOrderRef 1 = .error ()
    ∧ delete_product dbReferenced 1 = .error () := by
  exact ⟨by decide, by decide⟩

/-- C7 (amended): deleting an existing product cascade-deletes exactly its
reviews and removes the product row, but only when no cart line and no order
item reference it; any remaining CartItem or OrderItem reference makes the
delete fail with an integrity error — the nullable OrderItem.product_id
column does not unblock it. -/
theorem c7_delete_product_semantics
    {db : DB} {pid : Nat} {p : Product}
    (hfound : get_product db pid = some p) :
    ((∀ ci ∈ db.cart_items, ci.product_id ≠ pid) →
     (∀ o ∈ db.orders, ∀ oi ∈ o.items, oi.product_id ≠ some pid) →
      ∃ db2, delete_product db pid = .ok (db2, some p)
        ∧ (∀ r ∈ db2.reviews, r.product_id ≠ pid)
        ∧ (∀ r ∈ db.reviews, r.product_id ≠ pid → r ∈ db2.reviews)
        ∧ (∀ q ∈ db2.products, q.id ≠ pid)
        ∧ (∀ q ∈ db.products, q.id ≠ pid → q ∈ db2.products)
        ∧ db2.cart_items = db.cart_items ∧ db2.orders = db.orders
        ∧ db2.carts = db.carts ∧ db2.coupons = db.coupons)
    ∧ (((∃ ci ∈ db.cart_items, ci.product_id = pid) ∨
        (∃ o ∈ db.orders, ∃ oi ∈ o.items, oi.product_id = some pid)) →
       delete_product db pid = .error ()) := by
  constructor
  · intro hnc hno
    have hc1 : db.cart_items.any (fun ci => ci.product_id == pid) = false := by
      rw [List.any_eq_false]
      intro ci hci
      simpa using hnc ci hci
    have hc2 : db.orders.any (fun o =>
        o.items.any (fun oi => oi.product_id == some pid)) = false := by
      rw [List.any_eq_false]
      intro o ho
      rw [Bool.not_eq_true, List.any_eq_false]
      intro oi hoi
      simpa using hno o ho oi hoi
    refine ⟨{ db with
              products := db.products.filter (fun q => q.id != pid),
              reviews := db.reviews.filter (fun r => r.product_id != pid) },
            by simp [delete_product, hfound, hc1, hc2], ?_, ?_, ?_, ?_, rfl,
            rfl, rfl, rfl⟩
    · intro r hr
      have := (List.mem_filter.1 hr).2
      simpa using this
    · intro r hr hrp
      exact List.mem_filter.2 ⟨hr, by simpa using hrp⟩
    · intro q hq
      have := (List.mem_filter.1 hq).2
      simpa using this
    · intro q hq hqp
      exact List.mem_filter.2 ⟨hq, by simpa using hqp⟩
  · intro href
    have hcond : ((db.cart_items.any (fun ci => ci.product_id == pid)) ||
        (db.orders.any (fun o =>
          o.items.any (fun oi => oi.product_id == some pid)))) = true := by
      simp only [Bool.or_eq_true, List.any_eq_true]
      rcases href with ⟨ci, hci, hp⟩ | ⟨o, ho, oi, hoi, hp⟩
      · exact Or.inl ⟨ci, hci, by simpa using hp⟩
      · exact Or.inr ⟨o, ho, oi, hoi, by simpa using hp⟩
    simp [delete_product, hfound, hcond]

/-- C7 amended witness: with only a review attached, the delete succeeds and
removes product and review; with a cart line attached it fails. -/
theorem c7_witness :
    (∃ db2, delete_product dbReviewedOnly 1 = .ok (db2, some prodA)
      ∧ (∀ r ∈ db2.reviews, r.product_id ≠ 1)
      ∧ db2.cart_items = dbReviewedOnly.cart_items)
    ∧ delete_product dbReferenced 1 = .error () := by
  have h := @c7_delete_product_semantics dbReviewedOnly 1 prodA (by decide)
  have h2 := @c7_delete_product_semantics dbReferenced 1 prodA (by decide)
  refine ⟨?_, ?_⟩
  · obtain ⟨db2, hdel, hrev, _, _, _, hci, _⟩ :=
      h.1 (by decide) (by decide)
    exact ⟨db2, hdel, hrev, hci⟩
  · exact h2.2 (Or.inl ⟨⟨9, 4, 1, 1⟩, by decide, rfl⟩)

/-- C8 counterexample: the claim says a failure to persist the provider
identifier still returns the checkout URL; but when the commit fails the
blanket except maps it to a 500 and no URL is returned. -/
theorem c8_counterexample :
    create_checkout_session dbPending 7
      (.ok (some "https://checkout.stripe.test/cs_1") (some "pi_9")) false
      = (dbPending, .httpError 500) := by decide

/-- C8 (amended): checkout-session creation fails 404 when the order does
not exist and 400 when it is already paid; when the provider returns no
string payment identifier the persistence step is skipped and the URL is
returned; but when an identifier is present and the commit persisting it
fails, the endpoint fails with a 500 and the URL is not returned. -/
theorem c8_checkout_session_semantics
    (db : DB) (oid : Nat) (sr : StripeCreateResult) (cok : Bool) :
    (get_order_by_id db oid = none →
      create_checkout_session db oid sr cok = (db, .httpError 404))
    ∧ (∀ order, get_order_by_id db oid = some order →
        order.status = "paid" →
        create_checkout_session db oid sr cok = (db, .httpError 400))
    ∧ (∀ order u, get_order_by_id db oid = some order →
        order.status ≠ "paid" → sr = .ok (some u) none →
        create_checkout_session db oid sr cok = (db, .ok u))
    ∧ (∀ order u pi_id, get_order_by_id db oid = some order →
        order.status ≠ "paid" → sr = .ok (some u) (some pi_id) →
        cok = false →
        create_checkout_session db oid sr cok = (db, .httpError 500)) := by
  refine ⟨?_, ?_, ?_, ?_⟩
  · intro hnone
    simp [create_checkout_session, hnone]
  · intro order hord hpaid
    simp [create_checkout_session, hord, hpaid]
  · intro order u hord hnp hsr
    subst hsr
    simp [create_checkout_session, hord, hnp]
  · intro order u pi_id hord hnp hsr hcok
    subst hsr
    subst hcok
    simp [create_checkout_session, hord, hnp]

/-- C8 amended witness: on the pending-order fixture, a vanished order gives
404, a session without payment identifier still returns the URL, and a
failing persist commit gives a 500. -/
theorem c8_witness :
    create_checkout_session dbPending 999
      (.ok (some "https://checkout.stripe.test/cs_1") none) true
      = (dbPending, .httpError 404)
    ∧ create_checkout_session dbPending 7
        (.ok (some "https://checkout.stripe.test/cs_1") none) true
      = (dbPending, .ok "https://checkout.stripe.test/cs_1")
    ∧ create_checkout_session dbPending 7
        (.ok (some "https://checkout.stripe.test/cs_1") (some "pi_9")) false
      = (dbPending, .httpError 500) := by
  have hu := c8_checkout_session_semantics dbPending 999
    (.ok (some "https://checkout.stripe.test/cs_1") none) true
  have hp := c8_checkout_session_semantics dbPending 7
    (.ok (some "https://checkout.stripe.test/cs_1") none) true
  have hf := c8_checkout_session_semantics dbPending 7
    (.ok (some "https://checkout.stripe.test/cs_1") (some "pi_9")) false
  exact ⟨hu.1 (by decide),
         hp.2.2.1 orderPending "https://checkout.stripe.test/cs_1"
           (by decide) (by decide) rfl,
         hf.2.2.2 orderPending "https://checkout.stripe.test/cs_1" "pi_9"
           (by decide) (by decide) rfl rfl⟩

/-- C9 (claim): the virtual package of a nonempty cart has weight and height
the quantity-weighted sums, width and length the maxima of the single-item
dimensions (not multiplied by quantity), each of the four floored at the
carrier minimum, and the declared insurance value is the quantity-weighted
price sum. -/
theorem c9_virtual_package {items : List ShipItem} (hne : items ≠ []) :
    ∃ pkg, (prepare_package_for_api items).1 = some pkg
    ∧ pkg.weight
        = max ((items.map (fun i =>
            i.product.weight_kg * (i.quantity : Rat))).sum) MIN_WEIGHT_KG
    ∧ pkg.height
        = max ((items.map (fun i =>
            i.product.height_cm * (i.quantity : Rat))).sum) MIN_HEIGHT_CM
    ∧ (∀ i ∈ items, i.product.width_cm ≤ pkg.width)
    ∧ MIN_WIDTH_CM ≤ pkg.width
    ∧ (pkg.width = MIN_WIDTH_CM ∨
        ∃ i ∈ items, pkg.width = i.product.width_cm)
    ∧ (∀ i ∈ items, i.product.length_cm ≤ pkg.length)
    ∧ MIN_LENGTH_CM ≤ pkg.length
    ∧ (pkg.length = MIN_LENGTH_CM ∨
        ∃ i ∈ items, pkg.length = i.product.length_cm)
    ∧ (prepare_package_for_api items).2
        = (items.map (fun i => i.product.price * (i.quantity : Rat))).sum := by
  cases items with
  | nil => exact absurd rfl hne
  | cons first rest =>
    refine ⟨_, rfl, rfl, rfl, ?_, le_max_right _ _, ?_, ?_,
      le_max_right _ _, ?_, rfl⟩
    · intro i hi
      rcases List.mem_cons.1 hi with rfl | hi'
      · exact le_trans (foldl_max_init_le _ _) (le_max_left _ _)
      · exact le_trans
          (foldl_max_mem_le (List.mem_map_of_mem _ hi') _)
          (le_max_left _ _)
    · rcases max_choice ((rest.map (fun i => i.product.width_cm)).foldl max
          first.product.width_cm) MIN_WIDTH_CM with hm | hm
      · rcases foldl_max_cases (rest.map (fun i => i.product.width_cm))
            first.product.width_cm with hf | ⟨a, ha, hf⟩
        · right
          exact ⟨first, List.mem_cons_self _ _, by rw [hm, hf]⟩
        · obtain ⟨i, hi, hia⟩ := List.mem_map.1 ha
          right
          exact ⟨i, List.mem_cons_of_mem _ hi, by rw [hm, hf, ← hia]⟩
      · exact Or.inl hm
    · intro i hi
      rcases List.mem_cons.1 hi with rfl | hi'
      · exact le_trans (foldl_max_init_le _ _) (le_max_left _ _)
      · exact le_trans
          (foldl_max_mem_le (List.mem_map_of_mem _ hi') _)
          (le_max_left _ _)
    · rcases max_choice ((rest.map (fun i => i.product.length_cm)).foldl max
          first.product.length_cm) MIN_LENGTH_CM with hm | hm
      · rcases foldl_max_cases (rest.map (fun i => i.product.length_cm))
            first.product.length_cm with hf | ⟨a, ha, hf⟩
        · right
          exact ⟨first, List.mem_cons_self _ _, by rw [hm, hf]⟩
        · obtain ⟨i, hi, hia⟩ := List.mem_map.1 ha
          right
          exact ⟨i, List.mem_cons_of_mem _ hi, by rw [hm, hf, ← hia]⟩
      · exact Or.inl hm

/-- C9 witness: two items (quantities 2 and 1) give weight 4, height 7,
width 12, length 30 and insurance value 250. -/
theorem c9_witness :
    ([⟨prodA, 2⟩, ⟨prodB, 1⟩] : List ShipItem) ≠ []
    ∧ ∃ pkg, (prepare_package_for_api [⟨prodA, 2⟩, ⟨prodB, 1⟩]).1 = some pkg
      ∧ MIN_WIDTH_CM ≤ pkg.width
      ∧ (∀ i ∈ ([⟨prodA, 2⟩, ⟨prodB, 1⟩] : List ShipItem),
          i.product.width_cm ≤ pkg.width) := by
  refine ⟨by decide, ?_⟩
  obtain ⟨pkg, h1, _, _, h4, h5, _⟩ :=
    @c9_virtual_package [⟨prodA, 2⟩, ⟨prodB, 1⟩] (by decide)
  exact ⟨pkg, h1, h5, h4⟩

end ECom
